import Mathlib

/-!
Verification of the receipt / purchase-order generator (single source file
`streamlit_app.py`).  The development shallowly embeds the money calculator
(`compute_totals`), the day-keyed document-number allocator (`next_doc_no`),
the sqlite-backed document store (`save_receipt_to_db`, `load_receipt`), the
PDF table pagination of `make_pdf`, and the font fallback
(`try_register_thai_font`).  Python floats are modelled as exact rationals
(ℚ); the sqlite tables are modelled as Lean lists of typed rows, with
`INSERT OR REPLACE`, `DELETE ... WHERE doc_no = ?` and `SELECT ... WHERE`
modelled as the corresponding filter / append operations on those lists.
-/

namespace Receipt

/-! ## Decimal digit rendering

The Python code renders counters with the format spec `04d` and never parses
them back; to reason about the rendered text we embed decimal rendering
explicitly.  `natDigits n` is the list of decimal digit characters of `n`,
most significant first, exactly the digits Python prints for a nonnegative
integer. -/

/-- Character for one decimal digit value (0 ≤ d ≤ 9; larger values are
clamped to the last digit, a case never reached by `natDigits`). -/
def digitChar (d : Nat) : Char :=
  if d = 0 then '0' else if d = 1 then '1' else if d = 2 then '2'
  else if d = 3 then '3' else if d = 4 then '4' else if d = 5 then '5'
  else if d = 6 then '6' else if d = 7 then '7' else if d = 8 then '8' else '9'

/-- Numeric value of a decimal digit character (non-digits map to 9, a case
never reached when parsing output of `digitChar`). -/
def charVal (c : Char) : Nat :=
  if c = '0' then 0 else if c = '1' then 1 else if c = '2' then 2
  else if c = '3' then 3 else if c = '4' then 4 else if c = '5' then 5
  else if c = '6' then 6 else if c = '7' then 7 else if c = '8' then 8 else 9

/-- Fuel-driven digit expansion; `fuel` bounds the recursion depth so the
definition is structural and evaluates inside the kernel. -/
def natDigitsF : Nat → Nat → List Char
  | 0, _ => []
  | fuel + 1, n =>
    if n < 10 then [digitChar n]
    else natDigitsF fuel (n / 10) ++ [digitChar (n % 10)]

/-- Decimal digit characters of `n`, most significant first. -/
def natDigits (n : Nat) : List Char := natDigitsF (n + 1) n

/-- Parse a list of decimal digit characters back to the number they denote. -/
def parseDigits (l : List Char) : Nat :=
  l.foldl (fun acc c => acc * 10 + charVal c) 0

/-! ## Money: `round2` and `compute_totals`

The app stores all money amounts as Python floats; we embed them as exact
rationals.  `round2` is rounding to two decimal places, used by the line-total
recompute step `df.round(2)` in the UI. -/

/-- Rounding a rational to 2 decimal places. -/
def round2 (q : ℚ) : ℚ := (round (q * 100) : ℤ) / 100

/-- One row of the item table `items_df` (columns: description, quantity,
unit, unit price, line total). -/
structure LineItem where
  item_name : String
  qty : ℚ
  unit : String
  unit_price : ℚ
  line_total : ℚ
deriving Repr, DecidableEq

/-- Result dictionary of `compute_totals`. -/
structure Totals where
  subtotal : ℚ
  discount : ℚ
  shipping : ℚ
  vat_rate : ℚ
  vat_amount : ℚ
  total : ℚ
  taxable_base : ℚ
deriving Repr, DecidableEq

/-- Embedding of `compute_totals` (streamlit_app.py lines 167-185): the
subtotal is the sum of the line-total column of the item table, the three
adjustment inputs are clamped at 0, and the derived amounts follow. -/
def compute_totals (items : List LineItem) (discount shipping vat_rate : ℚ) : Totals :=
  let subtotal : ℚ := (items.map LineItem.line_total).sum
  let discount : ℚ := max 0 discount
  let shipping : ℚ := max 0 shipping
  let vat_rate : ℚ := max 0 vat_rate
  let taxable_base : ℚ := max 0 (subtotal - discount + shipping)
  let vat_amount : ℚ := taxable_base * (vat_rate / 100)
  let total : ℚ := taxable_base + vat_amount
  ⟨subtotal, discount, shipping, vat_rate, vat_amount, total, taxable_base⟩

/-- Demonstration item table matching the testable property 3 of the spec
(quantities 1 and 2 at unit prices 100 and 250). -/
def demoItems : List LineItem :=
  [⟨"A", 1, "pc", 100, 100⟩, ⟨"B", 2, "pc", 250, 500⟩]

/-! ## Document number allocator

`next_doc_no` (streamlit_app.py lines 80-97) reads today as a YYYYMMDD key,
fetches the `doc_counter` row for that key with a SELECT, then INSERTs
counter 1 or UPDATEs to the previous value plus 1, and formats the result
with the Python format spec `04d` (zero padding to a minimum width of 4).
The wall clock (`datetime.now()`) is passed in as the `today` parameter, and
the sqlite table `doc_counter` is modelled as an association list. -/

/-- Python `04d` formatting: the decimal digits, left padded with zeros to a
minimum width of 4 (wider numbers keep all their digits). -/
def format04 (n : Nat) : List Char :=
  if (natDigits n).length < 4 then
    List.replicate (4 - (natDigits n).length) '0' ++ natDigits n
  else natDigits n

/-- Document number string `PREFIX-YYYYMMDD-counter` as built by the f-string
on line 97. -/
def doc_no_string (pfx today : String) (counter : Nat) : String :=
  pfx ++ "-" ++ today ++ "-" ++ String.mk (format04 counter)

/-- Row of the `receipts` table. -/
structure ReceiptRow where
  doc_no : String
  created_at : String
  doc_type : String
  company_name : String
  company_address : String
  company_tax_id : String
  customer_name : String
  customer_address : String
  customer_tax_id : String
  payment_method : String
  note : String
  subtotal : ℚ
  discount : ℚ
  shipping : ℚ
  vat_rate : ℚ
  vat_amount : ℚ
  total : ℚ
  currency : String
deriving Repr, DecidableEq

/-- Row of the `receipt_items` table (the autoincrement id column is modelled
by the position in the list, which is also the order a table scan returns). -/
structure ItemRow where
  doc_no : String
  item_name : String
  qty : ℚ
  unit : String
  unit_price : ℚ
  line_total : ℚ
deriving Repr, DecidableEq

/-- The sqlite database created by `init_db`: the `doc_counter`, `receipts`
and `receipt_items` tables. -/
structure Db where
  doc_counter : List (String × Nat)
  receipts : List ReceiptRow
  receipt_items : List ItemRow
deriving Repr, DecidableEq

/-- Empty database, as `init_db` leaves a fresh file. -/
def Db.empty : Db := ⟨[], [], []⟩

/-- SELECT counter FROM doc_counter WHERE date_yyyymmdd = k. -/
def counterLookup (k : String) (tbl : List (String × Nat)) : Option Nat :=
  (tbl.find? (fun r => r.1 == k)).map (fun r => r.2)

/-- UPDATE doc_counter SET counter = v WHERE date_yyyymmdd = k. -/
def counterUpdate (k : String) (v : Nat) (tbl : List (String × Nat)) :
    List (String × Nat) :=
  tbl.map (fun r => if r.1 == k then (r.1, v) else r)

/-- SELECT step of `next_doc_no` (line 88): fetch the counter row for
today, if any. -/
def allocRead (today : String) (db : Db) : Option Nat :=
  counterLookup today db.doc_counter

/-- INSERT / UPDATE / format steps of `next_doc_no` (lines 90-97), taking the
previously fetched row.  In the Python code these writes run as sqlite
statements separate from the SELECT, so between the read and the write of one
caller another caller may run its own statements against the same file. -/
def allocWrite (pfx today : String) (fetched : Option Nat) (db : Db) :
    String × Db :=
  match fetched with
  | none =>
    (doc_no_string pfx today 1,
      { db with doc_counter := db.doc_counter ++ [(today, 1)] })
  | some c =>
    (doc_no_string pfx today (c + 1),
      { db with doc_counter := counterUpdate today (c + 1) db.doc_counter })

/-- Embedding of `next_doc_no` for a single (non-interleaved) caller: the
read step followed immediately by the write step. -/
def next_doc_no (pfx today : String) (db : Db) : String × Db :=
  allocWrite pfx today (allocRead today db) db

/-- Database whose counter for 2025-01-01 already stands at 5, used to
exhibit the race of C3. -/
def db_day5 : Db := ⟨[("20250101", 5)], [], []⟩

/-! ## Document store

`save_receipt_to_db` (lines 99-137) INSERT-OR-REPLACEs the header row keyed
by docNo, DELETEs every `receipt_items` row of that docNo and re-inserts the
current item table in order.  `load_receipt` (lines 148-155) SELECTs the
header row (raising when absent) and the item rows of the docNo.  A sqlite
table scan returns rows in rowid order, which for these append-only tables is
insertion order; `INSERT OR REPLACE` deletes the conflicting row and appends
the replacement with a fresh rowid, which the model mirrors by filtering out
the old row and appending the new one. -/

/-- Name, address and tax id of the seller or the customer. -/
structure Party where
  name : String
  address : String
  tax_id : String
deriving Repr, DecidableEq

/-- Item-table row tagged with its docNo, as inserted on line 133-136. -/
def itemToRow (doc_no : String) (i : LineItem) : ItemRow :=
  ⟨doc_no, i.item_name, i.qty, i.unit, i.unit_price, i.line_total⟩

/-- Projection of an item row back to the item-table columns selected on
line 154 (item_name, qty, unit, unit_price, line_total). -/
def rowToItem (r : ItemRow) : LineItem :=
  ⟨r.item_name, r.qty, r.unit, r.unit_price, r.line_total⟩

/-- Header row written by the INSERT OR REPLACE on lines 113-129. -/
def headerRow (doc_no created_at doc_type : String) (company customer : Party)
    (payment_method note : String) (totals : Totals) (currency : String) :
    ReceiptRow :=
  ⟨doc_no, created_at, doc_type, company.name, company.address, company.tax_id,
    customer.name, customer.address, customer.tax_id, payment_method, note,
    totals.subtotal, totals.discount, totals.shipping, totals.vat_rate,
    totals.vat_amount, totals.total, currency⟩

/-- Embedding of `save_receipt_to_db`. -/
def save_receipt_to_db (doc_no created_at doc_type : String)
    (company customer : Party) (payment_method note : String)
    (items : List LineItem) (totals : Totals) (currency : String) (db : Db) :
    Db :=
  { db with
    receipts := db.receipts.filter (fun r => !(r.doc_no == doc_no)) ++
      [headerRow doc_no created_at doc_type company customer payment_method
        note totals currency],
    receipt_items := db.receipt_items.filter (fun r => !(r.doc_no == doc_no)) ++
      items.map (itemToRow doc_no) }

/-- Embedding of `load_receipt`: the raised ValueError is modelled as the
`Except.error` carrying its message.  The function only reads the database. -/
def load_receipt (doc_no : String) (db : Db) :
    Except String (ReceiptRow × List LineItem) :=
  match db.receipts.find? (fun r => r.doc_no == doc_no) with
  | none => .error "Document not found"
  | some r =>
    .ok (r, (db.receipt_items.filter (fun i => i.doc_no == doc_no)).map rowToItem)

/-- Arguments of one `save_receipt_to_db` call, used to talk about arbitrary
sequences of saves. -/
structure SaveArgs where
  doc_no : String
  created_at : String
  doc_type : String
  company : Party
  customer : Party
  payment_method : String
  note : String
  items : List LineItem
  totals : Totals
  currency : String
deriving Repr, DecidableEq

/-- Apply one save call. -/
def applySave (db : Db) (a : SaveArgs) : Db :=
  save_receipt_to_db a.doc_no a.created_at a.doc_type a.company a.customer
    a.payment_method a.note a.items a.totals a.currency db

/-- Apply a sequence of save calls, oldest first. -/
def applySaves (ops : List SaveArgs) (db : Db) : Db := ops.foldl applySave db

/-- Load-button handler (lines 432-439): on success the loaded record and
item table become the new session state; on the raised exception only an
error message is shown and the session state is left untouched.  The
database itself is never written by a load. -/
def load_button_handler (d : String) (db : Db)
    (session : Option (ReceiptRow × List LineItem)) :
    Option (ReceiptRow × List LineItem) :=
  match load_receipt d db with
  | .ok ri => some ri
  | .error _ => session

/-- Demonstration save call used by witnesses. -/
def demoSave : SaveArgs :=
  ⟨"RC-20250101-0001", "2025-01-01 10:00", "RECEIPT", ⟨"ACME", "BKK", "123"⟩,
    ⟨"Bob", "CNX", "456"⟩, "Cash", "", demoItems, compute_totals demoItems 0 0 7,
    "THB"⟩

/-! ## PDF export: font fallback and table pagination

`try_register_thai_font` (lines 195-207) is modelled on its two environment
conditions: whether the optional TTF file exists and whether registering it
succeeds.  The line-item part of `make_pdf` (lines 289-330) is modelled as
the trace of drawing operations it emits: the table header block drawn once
before the loop, then per row an optional page break (`showPage` plus the
`setFont` reset) followed by the row itself. -/

/-- Embedding of `try_register_thai_font`: the existence check and the
try/except around `registerFont` become two booleans of the environment. -/
def try_register_thai_font (font_file_present register_succeeds : Bool) :
    String :=
  if font_file_present then
    (if register_succeeds then "THSarabun" else "Helvetica")
  else "Helvetica"

/-- One drawing operation of the line-item table of `make_pdf`. -/
inductive PdfOp where
  | drawTableHeader
  | drawDashRow
  | newPage
  | setBodyFont
  | drawRow (i : Nat)
deriving Repr, DecidableEq

/-- The constant `max_rows_per_page` of line 306. -/
def max_rows_per_page : Nat := 20

/-- Operations emitted for row `i` of the loop on lines 324-330: a page break
(`showPage`, modelled as `newPage`) and a font reset when `i > 0` and `i` is
a multiple of `max_rows_per_page`, then the row itself. -/
def rowBlock (i : Nat) : List PdfOp :=
  (if 0 < i ∧ i % max_rows_per_page = 0 then [PdfOp.newPage, PdfOp.setBodyFont]
    else []) ++ [PdfOp.drawRow i]

/-- Trace of the row loop over an item table of `n` rows. -/
def tableOps (n : Nat) : List PdfOp := (List.range n).flatMap rowBlock

/-- Trace of the whole line-item table of `make_pdf`: the header block
(lines 289-299) once, then the dash row for an empty table (line 321) or the
row loop. -/
def make_pdf_ops (n : Nat) : List PdfOp :=
  PdfOp.drawTableHeader :: (if n = 0 then [PdfOp.drawDashRow] else tableOps n)

/-- After a page break, is the table header drawn again before any further
item row?  (Vacuously true when no further row follows.) -/
def okAfterBreak : List PdfOp → Bool
  | [] => true
  | PdfOp.drawTableHeader :: _ => true
  | PdfOp.drawRow _ :: _ => false
  | _ :: rest => okAfterBreak rest

/-- Does every page break of the trace re-draw the table header before the
next item row, as the spec asserts of the pagination? -/
def headerRedrawn : List PdfOp → Bool
  | [] => true
  | PdfOp.newPage :: rest => okAfterBreak rest && headerRedrawn rest
  | _ :: rest => headerRedrawn rest

/-! ## CSV export (modelled from the spec)

The repository source contains no CSV exporter (only the PDF export is
implemented); §4.4, §6 and testable property 10 of the spec describe it, so
the exporter is modelled from the spec here: a pure function from the item
table to delimited text with one header row of the item-table column names
and one row per item including the derived line-total column, numeric fields
rendered in plain decimal form with two decimals, fields joined by commas,
rows joined by newlines.  We first develop the split / join machinery used
to parse such text back. -/

/-- Split a character list on a separator; inverse of `joinSep` for
separator-free fields. -/
def splitOnChar (sep : Char) : List Char → List (List Char)
  | [] => [[]]
  | c :: cs =>
    match splitOnChar sep cs with
    | [] => [[]]
    | f :: fs => if c = sep then [] :: f :: fs else (c :: f) :: fs

/-- Join fields with a separator character. -/
def joinSep (sep : Char) : List (List Char) → List Char
  | [] => []
  | [f] => f
  | f :: g :: fs => f ++ sep :: joinSep sep (g :: fs)

/-- Two-digit zero-padded rendering of a value below 100 (the cents part). -/
def pad2 (m : Nat) : List Char :=
  if m < 10 then '0' :: natDigits m else natDigits m

/-- Render an integer number of cents as a plain decimal numeral with two
decimal places (sign, whole part, point, two cent digits). -/
def renderCents (c : ℤ) : List Char :=
  (if c < 0 then ['-'] else []) ++
    (natDigits (c.natAbs / 100) ++ '.' :: pad2 (c.natAbs % 100))

/-- Render a rational in plain decimal form with two decimal places. -/
def renderQ (q : ℚ) : List Char := renderCents (round (q * 100))

/-- Parse an unsigned `whole.cents` numeral back to cents. -/
def parseCentsNN (l : List Char) : ℤ :=
  match splitOnChar '.' l with
  | [w, f] => (parseDigits w : ℤ) * 100 + parseDigits f
  | _ => 0

/-- Parse a possibly negative `whole.cents` numeral back to cents. -/
def parseCents (l : List Char) : ℤ :=
  match l with
  | [] => parseCentsNN []
  | c :: rest => if c = '-' then - parseCentsNN rest else parseCentsNN (c :: rest)

/-- Parse a decimal numeral with two decimal places back to a rational. -/
def parseQ (l : List Char) : ℚ := (parseCents l : ℚ) / 100

/-- Modelled from the spec: the header row of the CSV exporter, the column
names of the item table.  No CSV exporter exists in the repository source;
this and the next three definitions follow §4.4, §6 and testable property 10
of the spec. -/
def csv_header_fields : List (List Char) :=
  ["สินค้า/รายละเอียด".data, "จำนวน".data, "หน่วย".data, "ราคา/หน่วย".data,
    "รวม".data]

/-- Modelled from the spec: one CSV row per item, including the derived
line-total column (quantity × unit price rounded to 2 decimals), numeric
fields in plain decimal form. -/
def item_csv_fields (i : LineItem) : List (List Char) :=
  [i.item_name.data, renderQ i.qty, i.unit.data, renderQ i.unit_price,
    renderQ (round2 (i.qty * i.unit_price))]

/-- Modelled from the spec: the CSV table of an item list: header row then
one row per item. -/
def items_to_csv (items : List LineItem) : List (List (List Char)) :=
  csv_header_fields :: items.map item_csv_fields

/-- Modelled from the spec: serialize the rows to delimited text, fields
joined by commas, rows by newlines. -/
def csv_serialize (rows : List (List (List Char))) : List Char :=
  joinSep '\n' (rows.map (joinSep ','))

/-- Parse delimited text back into rows of fields. -/
def csv_parse (s : List Char) : List (List (List Char)) :=
  (splitOnChar '\n' s).map (splitOnChar ',')

/-! ## Theorems -/

theorem charVal_digitChar : ∀ d < 10, charVal (digitChar d) = d := by decide

theorem digitChar_props : ∀ d < 10,
    digitChar d ≠ '.' ∧ digitChar d ≠ ',' ∧ digitChar d ≠ '-' ∧
    digitChar d ≠ '\n' := by decide

theorem natDigitsF_succ (f m : Nat) :
    natDigitsF (f + 1) m = if m < 10 then [digitChar m]
      else natDigitsF f (m / 10) ++ [digitChar (m % 10)] := rfl

theorem natDigitsF_eq_of_lt : ∀ n fuel : Nat, n < fuel → natDigitsF fuel n = natDigits n := by
  intro n
  induction n using Nat.strong_induction_on with
  | _ n ih =>
    intro fuel hf
    cases fuel with
    | zero => omega
    | succ f =>
      show natDigitsF (f + 1) n = natDigitsF (n + 1) n
      rw [natDigitsF_succ f n, natDigitsF_succ n n]
      by_cases h10 : n < 10
      · simp [h10]
      · have hdiv : n / 10 < n := Nat.div_lt_self (by omega) (by omega)
        rw [if_neg h10, if_neg h10,
          ih (n / 10) hdiv f (by omega), ih (n / 10) hdiv n (by omega)]

/-- Unfolding equation for `natDigits`, mirroring the usual recursive
presentation of decimal rendering. -/
theorem natDigits_eq (n : Nat) :
    natDigits n = if n < 10 then [digitChar n]
      else natDigits (n / 10) ++ [digitChar (n % 10)] := by
  show natDigitsF (n + 1) n = _
  rw [natDigitsF_succ n n]
  by_cases h10 : n < 10
  · simp [h10]
  · have hdiv : n / 10 < n := Nat.div_lt_self (by omega) (by omega)
    rw [if_neg h10, if_neg h10, natDigitsF_eq_of_lt (n / 10) n hdiv]

theorem natDigits_ne_nil (n : Nat) : natDigits n ≠ [] := by
  rw [natDigits_eq]
  by_cases h10 : n < 10 <;> simp [h10]

theorem natDigits_mem (n : Nat) : ∀ c ∈ natDigits n, ∃ d, d < 10 ∧ c = digitChar d := by
  induction n using Nat.strong_induction_on with
  | _ n ih =>
    intro c hc
    rw [natDigits_eq] at hc
    by_cases h10 : n < 10
    · simp [h10] at hc
      exact ⟨n, h10, hc⟩
    · simp only [h10, if_false, List.mem_append, List.mem_singleton] at hc
      rcases hc with hc | hc
      · exact ih (n / 10) (Nat.div_lt_self (by omega) (by omega)) c hc
      · exact ⟨n % 10, Nat.mod_lt n (by omega), hc⟩

theorem parseDigits_aux : ∀ n acc : Nat,
    (natDigits n).foldl (fun acc c => acc * 10 + charVal c) acc =
      acc * 10 ^ (natDigits n).length + n := by
  intro n
  induction n using Nat.strong_induction_on with
  | _ n ih =>
    intro acc
    rw [natDigits_eq]
    by_cases h10 : n < 10
    · simp [h10, List.foldl, charVal_digitChar n h10]
    · have hdiv : n / 10 < n := Nat.div_lt_self (by omega) (by omega)
      rw [if_neg h10, List.foldl_append, ih (n / 10) hdiv acc]
      simp only [List.foldl, List.length_append, List.length_singleton]
      rw [charVal_digitChar (n % 10) (Nat.mod_lt n (by omega)), pow_succ]
      calc (acc * 10 ^ (natDigits (n / 10)).length + n / 10) * 10 + n % 10
          = acc * (10 ^ (natDigits (n / 10)).length * 10) + (10 * (n / 10) + n % 10) := by
            ring
        _ = acc * (10 ^ (natDigits (n / 10)).length * 10) + n := by
            rw [Nat.div_add_mod]

/-- Parsing the rendered digits of `n` recovers `n`: decimal rendering loses
no information. -/
theorem parseDigits_natDigits (n : Nat) : parseDigits (natDigits n) = n := by
  have := parseDigits_aux n 0
  simpa [parseDigits] using this

/-- Length of the decimal rendering in terms of `Nat.log`. -/
theorem natDigits_length (n : Nat) : (natDigits n).length = Nat.log 10 n + 1 := by
  induction n using Nat.strong_induction_on with
  | _ n ih =>
    rw [natDigits_eq]
    by_cases h10 : n < 10
    · have : Nat.log 10 n = 0 := Nat.log_eq_zero_iff.2 (Or.inl h10)
      simp [h10, this]
    · have hdiv : n / 10 < n := Nat.div_lt_self (by omega) (by omega)
      have hlog : 0 < Nat.log 10 n := Nat.log_pos (by omega) (by omega)
      rw [if_neg h10]
      simp only [List.length_append, List.length_singleton, ih (n / 10) hdiv]
      rw [Nat.log_div_base]
      omega

/-- C1 (amended): for every items table WHOSE LINE-TOTAL COLUMN SATISFIES THE
DERIVED-COLUMN INVARIANT (each line total equals quantity × unit price rounded
to 2 decimals, which the UI recompute step enforces before every call) and all
rational discount / shipping / vatRate inputs, `compute_totals` clamps the
three inputs at 0, returns subtotal = sum of (quantity × unitPrice rounded to
2 decimals) with 0 for the empty table, taxableBase = max 0 (subtotal −
discount + shipping) hence never negative, vatAmount = taxableBase × vatRate /
100 and total = taxableBase + vatAmount; being a total Lean function it always
returns and is side-effect-free. -/
theorem compute_totals_spec (items : List LineItem) (discount shipping vat_rate : ℚ)
    (hinv : ∀ i ∈ items, i.line_total = round2 (i.qty * i.unit_price)) :
    let t := compute_totals items discount shipping vat_rate
    t.discount = max 0 discount ∧ t.shipping = max 0 shipping ∧
    t.vat_rate = max 0 vat_rate ∧
    0 ≤ t.discount ∧ 0 ≤ t.shipping ∧ 0 ≤ t.vat_rate ∧
    t.subtotal = (items.map (fun i => round2 (i.qty * i.unit_price))).sum ∧
    (items = [] → t.subtotal = 0) ∧
    t.taxable_base = max 0 (t.subtotal - t.discount + t.shipping) ∧
    0 ≤ t.taxable_base ∧
    t.vat_amount = t.taxable_base * (t.vat_rate / 100) ∧
    t.total = t.taxable_base + t.vat_amount := by
  have hmap : items.map LineItem.line_total =
      items.map (fun i => round2 (i.qty * i.unit_price)) :=
    List.map_congr_left hinv
  refine ⟨rfl, rfl, rfl, le_max_left 0 _, le_max_left 0 _, le_max_left 0 _, ?_, ?_,
    rfl, le_max_left 0 _, rfl, rfl⟩
  · simp [compute_totals, hmap]
  · intro h
    simp [compute_totals, h]

/-- Witness for C1: the amended theorem applied to the demonstration table
with discount 0, shipping 0, VAT 7 percent. -/
theorem compute_totals_spec_witness :
    (let t := compute_totals demoItems 0 0 7
    t.discount = max 0 0 ∧ t.shipping = max 0 0 ∧
    t.vat_rate = max 0 7 ∧
    0 ≤ t.discount ∧ 0 ≤ t.shipping ∧ 0 ≤ t.vat_rate ∧
    t.subtotal = (demoItems.map (fun i => round2 (i.qty * i.unit_price))).sum ∧
    (demoItems = [] → t.subtotal = 0) ∧
    t.taxable_base = max 0 (t.subtotal - t.discount + t.shipping) ∧
    0 ≤ t.taxable_base ∧
    t.vat_amount = t.taxable_base * (t.vat_rate / 100) ∧
    t.total = t.taxable_base + t.vat_amount) :=
  compute_totals_spec demoItems 0 0 7 (by
    intro i hi
    simp only [demoItems, List.mem_cons, List.not_mem_nil, or_false] at hi
    rcases hi with hi | hi <;> subst hi <;>
      simp [round2, round_eq] <;> norm_num)

/-- Counterexample for C1 as frozen: `compute_totals` sums the stored
line-total column and never looks at quantity or unit price, so on a table
whose line-total cell disagrees with quantity × unitPrice the returned
subtotal is not the sum of (quantity × unitPrice rounded to 2 decimals). -/
theorem compute_totals_subtotal_counterexample :
    (compute_totals [⟨"X", 1, "pc", 1, 5⟩] 0 0 0).subtotal ≠
      (([⟨"X", 1, "pc", 1, 5⟩] : List LineItem).map
        (fun i => round2 (i.qty * i.unit_price))).sum := by
  have h1 : (compute_totals [⟨"X", 1, "pc", 1, 5⟩] 0 0 0).subtotal = 5 := by
    simp [compute_totals]
  have h2 : (([⟨"X", 1, "pc", 1, 5⟩] : List LineItem).map
      (fun i => round2 (i.qty * i.unit_price))).sum = 1 := by
    simp [round2, round_eq]
    norm_num
  rw [h1, h2]
  norm_num

theorem counterLookup_update_self (k : String) (v : Nat)
    (tbl : List (String × Nat)) (h : counterLookup k tbl ≠ none) :
    counterLookup k (counterUpdate k v tbl) = some v := by
  induction tbl with
  | nil => exact absurd rfl h
  | cons r rest ih =>
    by_cases hr : r.1 = k
    · simp [counterLookup, counterUpdate, List.find?, hr]
    · have hb : (r.1 == k) = false := beq_eq_false_iff_ne.2 hr
      have h2 : counterLookup k rest ≠ none := by
        intro hn
        apply h
        simpa [counterLookup, List.find?, hb] using hn
      simpa [counterLookup, counterUpdate, List.find?, hb] using ih h2

theorem counterLookup_update_ne (k k2 : String) (v : Nat)
    (tbl : List (String × Nat)) (h : k2 ≠ k) :
    counterLookup k2 (counterUpdate k v tbl) = counterLookup k2 tbl := by
  induction tbl with
  | nil => rfl
  | cons r rest ih =>
    by_cases hr : r.1 = k
    · have hb : (r.1 == k) = true := by simp [hr]
      have hb2 : (r.1 == k2) = false := beq_eq_false_iff_ne.2 (by
        rw [hr]; exact fun e => h e.symm)
      simpa [counterLookup, counterUpdate, List.find?, hb, hb2] using ih
    · have hb : (r.1 == k) = false := beq_eq_false_iff_ne.2 hr
      by_cases hr2 : r.1 = k2
      · have hb2 : (r.1 == k2) = true := by simp [hr2]
        simp [counterLookup, counterUpdate, List.find?, hb, hb2]
      · have hb2 : (r.1 == k2) = false := beq_eq_false_iff_ne.2 hr2
        simpa [counterLookup, counterUpdate, List.find?, hb, hb2] using ih

theorem counterLookup_append_single_self (k : String) (v : Nat)
    (tbl : List (String × Nat)) (h : counterLookup k tbl = none) :
    counterLookup k (tbl ++ [(k, v)]) = some v := by
  have hfind : tbl.find? (fun r => r.1 == k) = none := by
    rcases hfe : tbl.find? (fun r => r.1 == k) with _ | r
    · exact hfe
    · exfalso
      simp [counterLookup, hfe] at h
  simp [counterLookup, List.find?_append, hfind, List.find?]

theorem counterLookup_append_single_ne (k k2 : String) (v : Nat)
    (tbl : List (String × Nat)) (h : k2 ≠ k) :
    counterLookup k2 (tbl ++ [(k, v)]) = counterLookup k2 tbl := by
  have hb : (k == k2) = false := beq_eq_false_iff_ne.2 (fun e => h e.symm)
  rcases hfe : tbl.find? (fun r => r.1 == k2) with _ | r <;>
    simp [counterLookup, List.find?_append, hfe, List.find?, hb]

/-- C2: sequential allocation behaviour: when no counter row exists for the
date key the counter becomes 1, otherwise it is incremented by exactly 1; the
returned docNo is prefix, date key and padded counter joined by hyphens (so
same-day allocations share the date key); and every other date key keeps its
counter row unchanged, hence a new day starts at 1 and prior days are
untouched. -/
theorem next_doc_no_spec (pfx today : String) (db : Db) :
    (allocRead today db = none →
      (next_doc_no pfx today db).1 = doc_no_string pfx today 1 ∧
      counterLookup today (next_doc_no pfx today db).2.doc_counter = some 1) ∧
    (∀ c, allocRead today db = some c →
      (next_doc_no pfx today db).1 = doc_no_string pfx today (c + 1) ∧
      counterLookup today (next_doc_no pfx today db).2.doc_counter = some (c + 1)) ∧
    (∀ k, k ≠ today →
      counterLookup k (next_doc_no pfx today db).2.doc_counter =
        counterLookup k db.doc_counter) := by
  refine ⟨?_, ?_, ?_⟩
  · intro h
    unfold next_doc_no
    rw [h]
    exact ⟨rfl, counterLookup_append_single_self today 1 db.doc_counter h⟩
  · intro c h
    unfold next_doc_no
    rw [h]
    refine ⟨rfl, counterLookup_update_self today (c + 1) db.doc_counter ?_⟩
    intro hn
    rw [show counterLookup today db.doc_counter = allocRead today db from rfl, h] at hn
    cases hn
  · intro k hk
    unfold next_doc_no
    rcases h : allocRead today db with _ | c
    · exact counterLookup_append_single_ne today k 1 db.doc_counter hk
    · exact counterLookup_update_ne today k (c + 1) db.doc_counter hk

/-- Witness for C2: first allocation of a fresh day on an empty database. -/
theorem next_doc_no_spec_witness :
    (next_doc_no "RC" "20250101" Db.empty).1 = doc_no_string "RC" "20250101" 1 ∧
    counterLookup "20250101" (next_doc_no "RC" "20250101" Db.empty).2.doc_counter =
      some 1 :=
  (next_doc_no_spec "RC" "20250101" Db.empty).1 rfl

/-- C3 fails on the code: the SELECT (line 88) and the UPDATE (line 95) are
two separate sqlite statements, not one transactional read-modify-write, so
in the interleaving read A, read B, write A, write B both callers fetch
counter 5 and both return the same document number RC-20250101-0006. -/
theorem next_doc_no_race :
    (allocWrite "RC" "20250101" (allocRead "20250101" db_day5) db_day5).1 =
      (allocWrite "RC" "20250101" (allocRead "20250101" db_day5)
        (allocWrite "RC" "20250101" (allocRead "20250101" db_day5) db_day5).2).1 ∧
    (allocWrite "RC" "20250101" (allocRead "20250101" db_day5) db_day5).1 =
      "RC-20250101-0006" := by
  constructor <;> rfl

/-- C10: the Python `04d` format is minimum-width zero padding: counters 1 to
9999 render as exactly 4 characters, while counters of 10000 or more render
with more than 4 characters, as the full untruncated decimal digits of the
counter (parsing the rendered field recovers the counter exactly). -/
theorem format04_minwidth (n : Nat) :
    (1 ≤ n → n ≤ 9999 → (format04 n).length = 4) ∧
    (10000 ≤ n → 4 < (format04 n).length ∧ format04 n = natDigits n ∧
      parseDigits (format04 n) = n) := by
  constructor
  · intro h1 h2
    have hlog : Nat.log 10 n < 4 :=
      (Nat.lt_pow_iff_log_lt (by norm_num) (by omega)).1 (by norm_num; omega)
    have hlen : (natDigits n).length ≤ 4 := by rw [natDigits_length]; omega
    by_cases hc : (natDigits n).length < 4
    · simp only [format04, hc, if_true, List.length_append, List.length_replicate]
      omega
    · simp only [format04, hc, if_false]
      omega
  · intro h
    have hlog : 4 ≤ Nat.log 10 n := by
      by_contra hcon
      push_neg at hcon
      have hlt : n < 10 ^ 4 :=
        (Nat.lt_pow_iff_log_lt (by norm_num) (by omega)).2 hcon
      norm_num at hlt
      omega
    have hlen : 5 ≤ (natDigits n).length := by rw [natDigits_length]; omega
    have hc : ¬ (natDigits n).length < 4 := by omega
    refine ⟨?_, ?_, ?_⟩
    · simp only [format04, hc, if_false]; omega
    · simp only [format04, hc, if_false]
    · simp only [format04, hc, if_false]
      exact parseDigits_natDigits n

/-- Witness for C10: counter 7 renders as 4 characters; counter 10000 renders
as 5 untruncated digit characters. -/
theorem format04_minwidth_witness :
    (format04 7).length = 4 ∧
    (4 < (format04 10000).length ∧ format04 10000 = natDigits 10000 ∧
      parseDigits (format04 10000) = 10000) :=
  ⟨(format04_minwidth 7).1 (by norm_num) (by norm_num),
    (format04_minwidth 10000).2 (by norm_num)⟩

theorem load_after_save (doc_no created_at doc_type : String)
    (company customer : Party) (payment_method note : String)
    (items : List LineItem) (totals : Totals) (currency : String) (db : Db) :
    load_receipt doc_no (save_receipt_to_db doc_no created_at doc_type company
        customer payment_method note items totals currency db) =
      .ok (headerRow doc_no created_at doc_type company customer payment_method
        note totals currency, items) := by
  have hfind : (db.receipts.filter (fun r => !(r.doc_no == doc_no))).find?
      (fun r => r.doc_no == doc_no) = none := by
    rw [List.find?_eq_none]
    intro x hx
    rw [List.mem_filter] at hx
    simpa using hx.2
  have hitems1 : (db.receipt_items.filter (fun r => !(r.doc_no == doc_no))).filter
      (fun i => i.doc_no == doc_no) = [] := by
    rw [List.filter_eq_nil_iff]
    intro a ha
    rw [List.mem_filter] at ha
    simpa using ha.2
  have hitems2 : (items.map (itemToRow doc_no)).filter
      (fun i => i.doc_no == doc_no) = items.map (itemToRow doc_no) := by
    rw [List.filter_eq_self]
    intro a ha
    rw [List.mem_map] at ha
    obtain ⟨i, _, rfl⟩ := ha
    simp [itemToRow]
  have hback : (items.map (itemToRow doc_no)).map rowToItem = items := by
    rw [List.map_map]
    have hcomp : rowToItem ∘ itemToRow doc_no = id := funext fun i => rfl
    rw [hcomp, List.map_id]
  simp only [load_receipt, save_receipt_to_db, List.find?_append, hfind,
    Option.none_or, List.filter_append, hitems1, List.nil_append, hitems2, hback]
  simp [List.find?, headerRow]

/-- C4: saving a document and immediately loading the same docNo returns the
item list that was saved (same rows, same fields, same order, order being
rowid order of the freshly inserted rows) and a header row whose totals
fields are exactly the totals passed to save. -/
theorem save_then_load_roundtrip (doc_no created_at doc_type : String)
    (company customer : Party) (payment_method note : String)
    (items : List LineItem) (totals : Totals) (currency : String) (db : Db) :
    load_receipt doc_no (save_receipt_to_db doc_no created_at doc_type company
        customer payment_method note items totals currency db) =
      .ok (headerRow doc_no created_at doc_type company customer payment_method
        note totals currency, items) ∧
    (headerRow doc_no created_at doc_type company customer payment_method note
      totals currency).subtotal = totals.subtotal ∧
    (headerRow doc_no created_at doc_type company customer payment_method note
      totals currency).discount = totals.discount ∧
    (headerRow doc_no created_at doc_type company customer payment_method note
      totals currency).shipping = totals.shipping ∧
    (headerRow doc_no created_at doc_type company customer payment_method note
      totals currency).vat_rate = totals.vat_rate ∧
    (headerRow doc_no created_at doc_type company customer payment_method note
      totals currency).vat_amount = totals.vat_amount ∧
    (headerRow doc_no created_at doc_type company customer payment_method note
      totals currency).total = totals.total :=
  ⟨load_after_save doc_no created_at doc_type company customer payment_method
    note items totals currency db, rfl, rfl, rfl, rfl, rfl, rfl⟩

/-- C5: save is replace, not accumulate: after saving the same docNo twice
with different item lists, load returns exactly the second list, and the
`receipt_items` table holds exactly the second list of rows for that docNo
(no residue of the first save). -/
theorem save_replaces_items (doc_no ca1 dt1 : String) (co1 cu1 : Party)
    (pm1 n1 : String) (items1 : List LineItem) (t1 : Totals) (cur1 : String)
    (ca2 dt2 : String) (co2 cu2 : Party) (pm2 n2 : String)
    (items2 : List LineItem) (t2 : Totals) (cur2 : String) (db : Db) :
    load_receipt doc_no (save_receipt_to_db doc_no ca2 dt2 co2 cu2 pm2 n2
        items2 t2 cur2 (save_receipt_to_db doc_no ca1 dt1 co1 cu1 pm1 n1
          items1 t1 cur1 db)) =
      .ok (headerRow doc_no ca2 dt2 co2 cu2 pm2 n2 t2 cur2, items2) ∧
    (save_receipt_to_db doc_no ca2 dt2 co2 cu2 pm2 n2 items2 t2 cur2
        (save_receipt_to_db doc_no ca1 dt1 co1 cu1 pm1 n1 items1 t1 cur1
          db)).receipt_items.filter (fun r => r.doc_no == doc_no) =
      items2.map (itemToRow doc_no) := by
  constructor
  · exact load_after_save doc_no ca2 dt2 co2 cu2 pm2 n2 items2 t2 cur2 _
  · have hitems1 : ((save_receipt_to_db doc_no ca1 dt1 co1 cu1 pm1 n1 items1 t1
        cur1 db).receipt_items.filter (fun r => !(r.doc_no == doc_no))).filter
        (fun i => i.doc_no == doc_no) = [] := by
      rw [List.filter_eq_nil_iff]
      intro a ha
      rw [List.mem_filter] at ha
      simpa using ha.2
    have hitems2 : (items2.map (itemToRow doc_no)).filter
        (fun i => i.doc_no == doc_no) = items2.map (itemToRow doc_no) := by
      rw [List.filter_eq_self]
      intro a ha
      rw [List.mem_map] at ha
      obtain ⟨i, _, rfl⟩ := ha
      simp [itemToRow]
    conv =>
      lhs
      rw [show (save_receipt_to_db doc_no ca2 dt2 co2 cu2 pm2 n2 items2 t2 cur2
        (save_receipt_to_db doc_no ca1 dt1 co1 cu1 pm1 n1 items1 t1 cur1
          db)).receipt_items =
        (save_receipt_to_db doc_no ca1 dt1 co1 cu1 pm1 n1 items1 t1 cur1
          db).receipt_items.filter (fun r => !(r.doc_no == doc_no)) ++
        items2.map (itemToRow doc_no) from rfl]
    rw [List.filter_append, hitems1, List.nil_append, hitems2]

theorem no_header_after_saves (d : String) (ops : List SaveArgs) (db : Db)
    (hops : ∀ a ∈ ops, a.doc_no ≠ d) (hdb : ∀ r ∈ db.receipts, r.doc_no ≠ d) :
    ∀ r ∈ (applySaves ops db).receipts, r.doc_no ≠ d := by
  induction ops generalizing db with
  | nil => exact hdb
  | cons a ops ih =>
    refine ih _ (fun b hb => hops b (List.mem_cons_of_mem a hb)) ?_
    intro r hr
    simp only [applySave, save_receipt_to_db, List.mem_append,
      List.mem_filter, List.mem_singleton] at hr
    rcases hr with ⟨hmem, _⟩ | hr
    · exact hdb r hmem
    · rw [hr]
      exact hops a (List.mem_cons_self a ops)

theorem load_not_found_of_no_header (d : String) (db : Db)
    (h : ∀ r ∈ db.receipts, r.doc_no ≠ d) :
    load_receipt d db = .error "Document not found" := by
  have hfind : db.receipts.find? (fun r => r.doc_no == d) = none := by
    rw [List.find?_eq_none]
    intro x hx
    simpa using h x hx
  simp [load_receipt, hfind]

/-- C6: loading a docNo that no save ever wrote fails with the NotFound error
(the ValueError with message Document not found, not some unrelated failure),
and the failing handler leaves the in-memory session state unchanged; the
store is unchanged because a load performs no writes. -/
theorem load_never_saved (d : String) (ops : List SaveArgs)
    (session : Option (ReceiptRow × List LineItem))
    (h : ∀ a ∈ ops, a.doc_no ≠ d) :
    load_receipt d (applySaves ops Db.empty) = .error "Document not found" ∧
    load_button_handler d (applySaves ops Db.empty) session = session := by
  have herr : load_receipt d (applySaves ops Db.empty) =
      .error "Document not found" :=
    load_not_found_of_no_header d _
      (no_header_after_saves d ops Db.empty h (by intro r hr; cases hr))
  exact ⟨herr, by simp [load_button_handler, herr]⟩

/-- Witness for C6: after one save of another docNo, loading docNo ZZ errors
and the session state stays `none`. -/
theorem load_never_saved_witness :
    load_receipt "ZZ" (applySaves [demoSave] Db.empty) =
      .error "Document not found" ∧
    load_button_handler "ZZ" (applySaves [demoSave] Db.empty) none = none :=
  load_never_saved "ZZ" [demoSave] none (by
    intro a ha
    rw [List.mem_singleton] at ha
    rw [ha]
    decide)

/-- C9: font selection is total (this Lean function never fails, as the
Python function catches the registration exception and has no other failing
operation): it returns one of the two font names, and when the optional file
is absent, or present but failing to register, it silently returns the
default Helvetica. -/
theorem try_register_thai_font_spec (present succeeds : Bool) :
    (try_register_thai_font present succeeds = "THSarabun" ∨
      try_register_thai_font present succeeds = "Helvetica") ∧
    (present = false → try_register_thai_font present succeeds = "Helvetica") ∧
    (succeeds = false → try_register_thai_font present succeeds = "Helvetica") := by
  cases present <;> cases succeeds <;> simp [try_register_thai_font]

/-- Witness for C9: missing file and failing registration both yield the
default font. -/
theorem try_register_thai_font_spec_witness :
    try_register_thai_font false true = "Helvetica" ∧
    try_register_thai_font true false = "Helvetica" :=
  ⟨(try_register_thai_font_spec false true).2.1 rfl,
    (try_register_thai_font_spec true false).2.2 rfl⟩

theorem tableOps_succ (n : Nat) :
    tableOps (n + 1) = tableOps n ++ rowBlock n := by
  unfold tableOps
  rw [List.range_succ, List.flatMap_append]
  simp [rowBlock]

theorem drawTableHeader_not_mem_tableOps (n : Nat) :
    PdfOp.drawTableHeader ∉ tableOps n := by
  intro hmem
  rw [tableOps, List.mem_flatMap] at hmem
  obtain ⟨i, _, hin⟩ := hmem
  rw [rowBlock, List.mem_append] at hin
  rcases hin with hin | hin
  · by_cases hc : 0 < i ∧ i % max_rows_per_page = 0 <;> simp [hc] at hin
  · simp at hin

theorem count_newPage_tableOps (n : Nat) :
    (tableOps n).count PdfOp.newPage =
      ((List.range n).filter
        (fun i => decide (0 < i ∧ i % max_rows_per_page = 0))).length := by
  induction n with
  | zero => rfl
  | succ n ih =>
    rw [tableOps_succ, List.count_append, ih, List.range_succ,
      List.filter_append, List.length_append]
    by_cases hc : 0 < n ∧ n % max_rows_per_page = 0 <;>
      simp [rowBlock, hc, List.count_cons]

theorem rowBlock_of_break (i : Nat) (h0 : 0 < i) (hm : i % max_rows_per_page = 0) :
    rowBlock i = [PdfOp.newPage, PdfOp.setBodyFont, PdfOp.drawRow i] := by
  simp [rowBlock, h0, hm]

theorem rowBlock_infix_tableOps (i n : Nat) (hin : i < n) :
    rowBlock i <:+: tableOps n := by
  induction n with
  | zero => omega
  | succ n ih =>
    rw [tableOps_succ]
    by_cases hi : i < n
    · exact (ih hi).trans (List.prefix_append _ _).isInfix
    · have : i = n := by omega
      rw [this]
      exact (List.suffix_append _ _).isInfix

theorem headerRedrawn_break_row_false (i : Nat) :
    ∀ s t : List PdfOp,
      headerRedrawn (s ++ (PdfOp.newPage :: PdfOp.setBodyFont ::
        PdfOp.drawRow i :: t)) = false := by
  intro s
  induction s with
  | nil =>
    intro t
    simp [headerRedrawn, okAfterBreak]
  | cons op s ih =>
    intro t
    cases op <;> simp [headerRedrawn, ih t]

/-- C8 (amended): for every item table longer than `max_rows_per_page`, the
loop starts a new page before each row whose index is a positive multiple of
`max_rows_per_page` and re-sets the body font there, the number of page
breaks is exactly the number of such indices, but the column header block is
drawn exactly once, on the first page: it is NOT re-drawn on later pages. -/
theorem make_pdf_pagination (n : Nat) (h : max_rows_per_page < n) :
    (make_pdf_ops n).count PdfOp.drawTableHeader = 1 ∧
    (make_pdf_ops n).count PdfOp.newPage =
      ((List.range n).filter
        (fun i => decide (0 < i ∧ i % max_rows_per_page = 0))).length ∧
    (∀ i, 0 < i → i < n → i % max_rows_per_page = 0 →
      [PdfOp.newPage, PdfOp.setBodyFont, PdfOp.drawRow i] <:+: make_pdf_ops n) ∧
    headerRedrawn (make_pdf_ops n) = false := by
  have hn0 : n ≠ 0 := by
    unfold max_rows_per_page at h
    omega
  have hops : make_pdf_ops n = PdfOp.drawTableHeader :: tableOps n := by
    simp [make_pdf_ops, hn0]
  have hbrk : ∀ i, 0 < i → i < n → i % max_rows_per_page = 0 →
      [PdfOp.newPage, PdfOp.setBodyFont, PdfOp.drawRow i] <:+: make_pdf_ops n := by
    intro i h0 hlt hm
    rw [hops]
    exact List.infix_cons
      (rowBlock_of_break i h0 hm ▸ rowBlock_infix_tableOps i n hlt)
  refine ⟨?_, ?_, hbrk, ?_⟩
  · rw [hops, List.count_cons_self,
      List.count_eq_zero.2 (drawTableHeader_not_mem_tableOps n)]
  · rw [hops, List.count_cons_of_ne (by simp), count_newPage_tableOps]
  · have h20 : [PdfOp.newPage, PdfOp.setBodyFont, PdfOp.drawRow max_rows_per_page]
        <:+: make_pdf_ops n :=
      hbrk max_rows_per_page (by norm_num [max_rows_per_page]) h
        (Nat.mod_self max_rows_per_page)
    obtain ⟨s, t, hst⟩ := h20
    rw [← hst]
    have := headerRedrawn_break_row_false max_rows_per_page s t
    simpa using this

/-- C8 counterexample to the claim as frozen: with 21 rows a page break
happens before row 20, but no table-header draw follows it before that row
is drawn, so the header is not re-drawn on the new page. -/
theorem make_pdf_header_not_redrawn :
    max_rows_per_page < 21 ∧ headerRedrawn (make_pdf_ops 21) = false := by
  constructor <;> decide

/-- Witness for C8: the amended pagination theorem evaluated on a 21-row
table. -/
theorem make_pdf_pagination_witness :
    (make_pdf_ops 21).count PdfOp.drawTableHeader = 1 ∧
    (make_pdf_ops 21).count PdfOp.newPage =
      ((List.range 21).filter
        (fun i => decide (0 < i ∧ i % max_rows_per_page = 0))).length ∧
    [PdfOp.newPage, PdfOp.setBodyFont, PdfOp.drawRow 20] <:+: make_pdf_ops 21 ∧
    headerRedrawn (make_pdf_ops 21) = false :=
  ⟨(make_pdf_pagination 21 (by decide)).1,
    (make_pdf_pagination 21 (by decide)).2.1,
    (make_pdf_pagination 21 (by decide)).2.2.1 20 (by decide) (by decide)
      (by decide),
    (make_pdf_pagination 21 (by decide)).2.2.2⟩

theorem splitOnChar_ne_nil (sep : Char) (l : List Char) :
    splitOnChar sep l ≠ [] := by
  induction l with
  | nil => simp [splitOnChar]
  | cons c cs ih =>
    simp only [splitOnChar]
    rcases h : splitOnChar sep cs with _ | ⟨f, fs⟩
    · simp
    · by_cases hc : c = sep <;> simp [hc]

theorem splitOnChar_of_not_mem (sep : Char) (l : List Char) (h : sep ∉ l) :
    splitOnChar sep l = [l] := by
  induction l with
  | nil => rfl
  | cons c cs ih =>
    have hc : c ≠ sep := fun e => h (by rw [e]; exact List.mem_cons_self sep cs)
    have hcs : sep ∉ cs := fun m => h (List.mem_cons_of_mem c m)
    simp only [splitOnChar, ih hcs]
    simp [hc]

theorem splitOnChar_append (sep : Char) (f rest : List Char) (hf : sep ∉ f) :
    splitOnChar sep (f ++ sep :: rest) = f :: splitOnChar sep rest := by
  induction f with
  | nil =>
    simp only [List.nil_append, splitOnChar]
    rcases h : splitOnChar sep rest with _ | ⟨g, gs⟩
    · exact absurd h (splitOnChar_ne_nil sep rest)
    · simp
  | cons c cs ih =>
    have hc : c ≠ sep := fun e => hf (by rw [e]; exact List.mem_cons_self sep cs)
    have hcs : sep ∉ cs := fun m => hf (List.mem_cons_of_mem c m)
    simp only [List.cons_append, splitOnChar]
    rw [show cs.append (sep :: rest) = cs ++ sep :: rest from rfl, ih hcs]
    simp [hc]

theorem splitOnChar_joinSep (sep : Char) :
    ∀ l : List (List Char), l ≠ [] → (∀ f ∈ l, sep ∉ f) →
      splitOnChar sep (joinSep sep l) = l := by
  intro l
  induction l with
  | nil => intro h; exact absurd rfl h
  | cons f fs ih =>
    intro _ hmem
    rcases fs with _ | ⟨g, gs⟩
    · exact splitOnChar_of_not_mem sep f (hmem f (List.mem_cons_self f []))
    · rw [show joinSep sep (f :: g :: gs) = f ++ sep :: joinSep sep (g :: gs)
        from rfl]
      rw [splitOnChar_append sep f _ (hmem f (List.mem_cons_self f (g :: gs)))]
      rw [ih (by simp) (fun x hx => hmem x (List.mem_cons_of_mem f hx))]

theorem not_mem_joinSep (sep sep2 : Char) (hne : sep2 ≠ sep) :
    ∀ l : List (List Char), (∀ f ∈ l, sep2 ∉ f) → sep2 ∉ joinSep sep l := by
  intro l
  induction l with
  | nil => intro _; simp [joinSep]
  | cons f fs ih =>
    intro h
    rcases fs with _ | ⟨g, gs⟩
    · exact h f (List.mem_cons_self f [])
    · rw [show joinSep sep (f :: g :: gs) = f ++ sep :: joinSep sep (g :: gs)
        from rfl]
      intro hmem
      rw [List.mem_append] at hmem
      rcases hmem with hm | hm
      · exact h f (List.mem_cons_self f (g :: gs)) hm
      · rcases List.mem_cons.1 hm with he | hm2
        · exact hne he
        · exact ih (fun x hx => h x (List.mem_cons_of_mem f hx)) hm2

theorem pad2_mem (m : Nat) : ∀ c ∈ pad2 m, ∃ d, d < 10 ∧ c = digitChar d := by
  intro c hc
  by_cases h10 : m < 10
  · rw [pad2, if_pos h10] at hc
    rcases List.mem_cons.1 hc with he | hm
    · exact ⟨0, by omega, he⟩
    · exact natDigits_mem m c hm
  · rw [pad2, if_neg h10] at hc
    exact natDigits_mem m c hc

theorem renderCents_mem (c : ℤ) : ∀ ch ∈ renderCents c,
    ch = '-' ∨ ch = '.' ∨ ∃ d, d < 10 ∧ ch = digitChar d := by
  intro ch hch
  rw [renderCents, List.mem_append] at hch
  rcases hch with hm | hm
  · by_cases hc : c < 0
    · rw [if_pos hc] at hm
      exact Or.inl (List.mem_singleton.1 hm)
    · rw [if_neg hc] at hm
      cases hm
  · rw [List.mem_append] at hm
    rcases hm with hm | hm
    · exact Or.inr (Or.inr (natDigits_mem _ ch hm))
    · rcases List.mem_cons.1 hm with he | hm2
      · exact Or.inr (Or.inl he)
      · exact Or.inr (Or.inr (pad2_mem _ ch hm2))

theorem renderQ_not_mem (q : ℚ) : ',' ∉ renderQ q ∧ '\n' ∉ renderQ q := by
  constructor <;> intro hmem <;>
    rcases renderCents_mem _ _ hmem with he | he | ⟨d, hd, he⟩ <;>
      first
        | cases he
        | exact absurd he.symm (digitChar_props d hd).2.1
        | exact absurd he.symm (digitChar_props d hd).2.2.2

theorem parseDigits_cons_zero (l : List Char) :
    parseDigits ('0' :: l) = parseDigits l := by
  have h0 : (0 : Nat) * 10 + charVal '0' = 0 := by decide
  simp only [parseDigits, List.foldl]
  rw [h0]

theorem parseDigits_pad2 (m : Nat) : parseDigits (pad2 m) = m := by
  by_cases h10 : m < 10
  · rw [pad2, if_pos h10, parseDigits_cons_zero, parseDigits_natDigits]
  · rw [pad2, if_neg h10, parseDigits_natDigits]

theorem dot_not_mem_natDigits (n : Nat) : '.' ∉ natDigits n := by
  intro hm
  obtain ⟨d, hd, he⟩ := natDigits_mem n _ hm
  exact (digitChar_props d hd).1 he.symm

theorem dot_not_mem_pad2 (m : Nat) : '.' ∉ pad2 m := by
  intro hm
  obtain ⟨d, hd, he⟩ := pad2_mem m _ hm
  exact (digitChar_props d hd).1 he.symm

theorem parseCentsNN_payload (a b : Nat) :
    parseCentsNN (natDigits a ++ '.' :: pad2 b) = (a : ℤ) * 100 + (b : ℤ) := by
  have hsplit : splitOnChar '.' (natDigits a ++ '.' :: pad2 b) =
      [natDigits a, pad2 b] := by
    rw [splitOnChar_append _ _ _ (dot_not_mem_natDigits a),
      splitOnChar_of_not_mem _ _ (dot_not_mem_pad2 b)]
  simp [parseCentsNN, hsplit, parseDigits_natDigits, parseDigits_pad2]

theorem natDigits_head_digit (n : Nat) :
    ∃ c0 cs, natDigits n = c0 :: cs ∧ c0 ≠ '-' := by
  rcases h : natDigits n with _ | ⟨c0, cs⟩
  · exact absurd h (natDigits_ne_nil n)
  · refine ⟨c0, cs, rfl, ?_⟩
    have hm : c0 ∈ natDigits n := by
      rw [h]
      exact List.mem_cons_self c0 cs
    obtain ⟨d, hd, he⟩ := natDigits_mem n c0 hm
    rw [he]
    exact (digitChar_props d hd).2.2.1

/-- Rendering cents and parsing them back is the identity: the two-decimal
rendering loses no information. -/
theorem parseCents_renderCents (c : ℤ) : parseCents (renderCents c) = c := by
  by_cases hc : c < 0
  · rw [renderCents, if_pos hc, List.singleton_append]
    rw [show parseCents ('-' :: (natDigits (c.natAbs / 100) ++ '.' ::
        pad2 (c.natAbs % 100))) = - parseCentsNN (natDigits (c.natAbs / 100) ++
        '.' :: pad2 (c.natAbs % 100)) from by simp [parseCents]]
    rw [parseCentsNN_payload]
    omega
  · rw [renderCents, if_neg hc, List.nil_append]
    obtain ⟨c0, cs, heq, hne⟩ := natDigits_head_digit (c.natAbs / 100)
    rw [heq, List.cons_append]
    rw [show parseCents (c0 :: (cs ++ '.' :: pad2 (c.natAbs % 100))) =
        parseCentsNN (c0 :: (cs ++ '.' :: pad2 (c.natAbs % 100))) from by
      simp [parseCents, hne]]
    rw [← List.cons_append, ← heq, parseCentsNN_payload]
    omega

/-- Parsing the rendered form of any 2-decimal rounded rational recovers it
exactly. -/
theorem parseQ_renderQ_round2 (x : ℚ) : parseQ (renderQ (round2 x)) = round2 x := by
  have h1 : round2 x * 100 = ((round (x * 100) : ℤ) : ℚ) := by
    rw [round2]
    rw [div_mul_cancel₀ _ (by norm_num : (100 : ℚ) ≠ 0)]
  have h2 : round (round2 x * 100) = round (x * 100) := by
    rw [h1, round_intCast]
  rw [parseQ, renderQ, h2, parseCents_renderCents, round2]

theorem csv_rows_roundtrip (rows : List (List (List Char)))
    (hne : rows ≠ [])
    (hfields : ∀ r ∈ rows, r ≠ [] ∧ ∀ f ∈ r, ',' ∉ f ∧ '\n' ∉ f) :
    csv_parse (csv_serialize rows) = rows := by
  unfold csv_parse csv_serialize
  have hrowfree : ∀ s ∈ rows.map (joinSep ','), '\n' ∉ s := by
    intro s hs
    rw [List.mem_map] at hs
    obtain ⟨r, hr, rfl⟩ := hs
    exact not_mem_joinSep ',' '\n' (by decide) r
      (fun f hf => ((hfields r hr).2 f hf).2)
  rw [splitOnChar_joinSep '\n' _ (by simpa using hne) hrowfree, List.map_map]
  have hrow : ∀ r ∈ rows, (splitOnChar ',' ∘ joinSep ',') r = id r := by
    intro r hr
    exact splitOnChar_joinSep ',' r (hfields r hr).1
      (fun f hf => ((hfields r hr).2 f hf).1)
  rw [List.map_congr_left hrow, List.map_id]

/-- C7 (spec-modelled): the CSV exporter modelled from the spec is a pure
function from the item table to text; parsing its output back yields exactly
one header row plus one row per item (provided the free-text description and
unit fields contain no delimiter characters, since the spec specifies plain
delimited text without a quoting rule), and the numeric value parsed from the
total column of each item row equals that item quantity × unit price rounded
to 2 decimals. -/
theorem csv_export_parse_roundtrip (items : List LineItem)
    (hfields : ∀ i ∈ items,
      (',' ∉ i.item_name.data ∧ '\n' ∉ i.item_name.data) ∧
      (',' ∉ i.unit.data ∧ '\n' ∉ i.unit.data)) :
    csv_parse (csv_serialize (items_to_csv items)) = items_to_csv items ∧
    (csv_parse (csv_serialize (items_to_csv items))).length = items.length + 1 ∧
    ∀ i ∈ items, parseQ (renderQ (round2 (i.qty * i.unit_price))) =
      round2 (i.qty * i.unit_price) := by
  have hrt : csv_parse (csv_serialize (items_to_csv items)) = items_to_csv items := by
    apply csv_rows_roundtrip
    · simp [items_to_csv]
    · intro r hr
      rw [items_to_csv] at hr
      rcases List.mem_cons.1 hr with he | hm
      · rw [he]
        exact (by decide : csv_header_fields ≠ [] ∧
          ∀ f ∈ csv_header_fields, ',' ∉ f ∧ '\n' ∉ f)
      · rw [List.mem_map] at hm
        obtain ⟨i, hi, rfl⟩ := hm
        refine ⟨by simp [item_csv_fields], ?_⟩
        intro f hf
        obtain ⟨h1, h2⟩ := hfields i hi
        simp only [item_csv_fields, List.mem_cons, List.not_mem_nil, or_false] at hf
        rcases hf with rfl | rfl | rfl | rfl | rfl
        · exact ⟨h1.1, h1.2⟩
        · exact renderQ_not_mem _
        · exact h2
        · exact renderQ_not_mem _
        · exact renderQ_not_mem _
  refine ⟨hrt, ?_, ?_⟩
  · rw [hrt]
    simp [items_to_csv]
  · intro i _
    exact parseQ_renderQ_round2 _

/-- Witness for C7: the round trip evaluated on the demonstration items. -/
theorem csv_export_parse_roundtrip_witness :
    csv_parse (csv_serialize (items_to_csv demoItems)) = items_to_csv demoItems ∧
    (csv_parse (csv_serialize (items_to_csv demoItems))).length =
      demoItems.length + 1 :=
  ⟨(csv_export_parse_roundtrip demoItems (by decide)).1,
    (csv_export_parse_roundtrip demoItems (by decide)).2.1⟩

end Receipt
